import Mathlib

/-
Verification development for the BOS Commerce marketplace contract
(`contract/src/contract.ts` + `contract/src/models.ts`).

The contract state (NEAR collections `Vector` / `LookupMap`) is embedded as a
Lean structure with list- and function-valued fields; JS `bigint` amounts are
embedded as `Nat`/`Int`; the duck-typed method arguments are embedded as a
small `JsVal` sum type (string / number / null-ish) so that the runtime
`typeof` guards are observable; JS numbers that reach the contract are finite
decimal values, embedded exactly as `Dec` (mantissa × 10^-exponent).  The
`decimal.js` arithmetic in `purchase_item` is exact on these inputs (the
stored price strings have far fewer than the library's 20 significant digits),
so it is embedded as exact decimal arithmetic.  Number-to-string conversion is
embedded for the plain (non-exponential) decimal notation range, which covers
every string the contract produces or consumes.
-/

namespace BOS

/-! ### Decimal digit strings (JS `Number.prototype.toString`, `Vector.length.toString()`) -/

/-- Digit character for a value `d < 10`. -/
def digitChar (d : Nat) : Char :=
  if d = 0 then '0' else if d = 1 then '1' else if d = 2 then '2'
  else if d = 3 then '3' else if d = 4 then '4' else if d = 5 then '5'
  else if d = 6 then '6' else if d = 7 then '7' else if d = 8 then '8' else '9'

/-- Numeric value of a digit character. -/
def charVal (c : Char) : Nat := c.toNat - 48

/-- Fuel-driven base-10 digit rendering (most significant digit first).
Structural recursion on the fuel so that it reduces inside `decide`. -/
def natDigitsFuel : Nat → Nat → List Char
  | 0, _ => []
  | fuel + 1, n => if n = 0 then [] else natDigitsFuel fuel (n / 10) ++ [digitChar (n % 10)]

/-- Decimal string of a natural number, as JS renders integers. -/
def natRepr (n : Nat) : String :=
  if n = 0 then "0" else String.mk (natDigitsFuel n n)

/-- Decimal string of an integer, as JS renders integers. -/
def intRepr (m : Int) : String :=
  if m < 0 then "-" ++ natRepr m.natAbs else natRepr m.natAbs

/-- Value of a digit list (inverse of `natDigitsFuel`). -/
def digitsVal (l : List Char) : Nat :=
  l.foldl (fun a c => 10 * a + charVal c) 0

/-- Numeric value of an id string (used to state ascending-id ordering). -/
def decodeNat (s : String) : Nat := digitsVal s.data

/-! ### Exact finite decimals (JS numbers reaching the contract, `decimal.js` values) -/

/-- A finite decimal value `m / 10 ^ e`. -/
structure Dec where
  m : Int
  e : Nat
deriving DecidableEq, Repr

/-- Exact rational value of a decimal. -/
def decVal (d : Dec) : ℚ := (d.m : ℚ) / 10 ^ d.e

/-- Remove trailing fractional zeros: canonical form used by JS number
formatting and by `BigInt` conversion of an integral decimal. -/
def stripZeros : Int → Nat → Int × Nat
  | m, 0 => (m, 0)
  | m, e + 1 => if m % 10 = 0 then stripZeros (m / 10) e else (m, e + 1)

/-- Pad a natural number with leading zeros to `w` digits (fractional part). -/
def natDigitsPad (n w : Nat) : String :=
  let s := natRepr n
  String.mk (List.replicate (w - s.length) '0') ++ s

/-- Plain decimal rendering of a `Dec`: JS `Number.prototype.toString` /
`Decimal.prototype.toFixed()` on the non-exponential range. -/
def Dec.render (d : Dec) : String :=
  let p := stripZeros d.m d.e
  if p.2 = 0 then intRepr p.1
  else
    (if p.1 < 0 then "-" else "")
      ++ natRepr (p.1.natAbs / 10 ^ p.2) ++ "." ++ natDigitsPad (p.1.natAbs % 10 ^ p.2) p.2

/-- Split a character list at the first decimal point. -/
def splitDot : List Char → List Char × Option (List Char)
  | [] => ([], none)
  | c :: rest =>
    if c = '.' then ([], some rest)
    else
      let p := splitDot rest
      (c :: p.1, p.2)

/-- All characters are decimal digits. -/
def digitsOnly (l : List Char) : Bool := l.all (fun c => c.isDigit)

/-- Attach a sign to a natural value. -/
def condNeg (sign : Bool) (n : Nat) : Int := if sign then -(n : Int) else (n : Int)

/-- Parse of a plain decimal string, as the `decimal.js` constructor accepts it
(`[+-]?(\d+(\.\d*)?|\.\d+)`; the exponential/radix forms it also accepts are
never produced by this contract).  `none` embeds the thrown `DecimalError`. -/
def parseDec (str : String) : Option Dec :=
  let p0 : Bool × List Char :=
    match str.data with
    | '-' :: rest => (true, rest)
    | '+' :: rest => (false, rest)
    | l => (false, l)
  let sign := p0.1
  match splitDot p0.2 with
  | (ip, none) =>
    if ip ≠ [] ∧ digitsOnly ip then some ⟨condNeg sign (digitsVal ip), 0⟩ else none
  | (ip, some fp) =>
    if (ip ≠ [] ∨ fp ≠ []) ∧ digitsOnly ip ∧ digitsOnly fp then
      some ⟨condNeg sign (digitsVal (ip ++ fp)), fp.length⟩
    else none

/-- `amountDec.mul(Decimal.pow(10, 24))`: exact multiplication by `10 ^ 24`
(exact because the operand's significand is far below the 20-significant-digit
default precision of `decimal.js`: stored prices come from JS doubles). -/
def mulPow24 (d : Dec) : Dec :=
  if d.e ≤ 24 then ⟨d.m * (10 : Int) ^ (24 - d.e), 0⟩ else ⟨d.m, d.e - 24⟩

/-- `BigInt(amount.toFixed())`: succeeds exactly when the decimal value is an
integer; `none` embeds the thrown `SyntaxError`. -/
def bigIntOfDec (d : Dec) : Option Int :=
  let p := stripZeros d.m d.e
  if p.2 = 0 then some p.1 else none

/-! ### Duck-typed method arguments -/

/-- A weakly-typed JS argument as it reaches a contract method. -/
inductive JsVal where
  | vStr (s : String)
  | vNum (d : Dec)
  | vNull
deriving DecidableEq, Repr

/-- JS truthiness of an argument (`assert(x, ...)`). -/
def JsVal.truthy : JsVal → Bool
  | .vStr s => s ≠ ""
  | .vNum d => d.m ≠ 0
  | .vNull => false

/-- The runtime check `typeof x === "string"`. -/
def JsVal.isString : JsVal → Bool
  | .vStr _ => true
  | _ => false

/-- The runtime check `typeof x === "number"`. -/
def JsVal.isNumber : JsVal → Bool
  | .vNum _ => true
  | _ => false

/-- The string payload (used after the `typeof` guard has passed). -/
def JsVal.asString : JsVal → String
  | .vStr s => s
  | _ => ""

/-- The numeric payload (used after the `typeof` guard has passed). -/
def JsVal.asNum : JsVal → Dec
  | .vNum d => d
  | _ => ⟨0, 0⟩

/-! ### Data model (`models.ts`, contract fields) -/

/-- `ItemStatus` enum from `models.ts`. -/
inductive ItemStatus where
  | CREATED
  | FORSALE
  | DELETED
  | SOLD
deriving DecidableEq, Repr

/-- `Item` record from `models.ts`. -/
structure Item where
  id : String := ""
  name : String := ""
  description : String := ""
  price : String := ""
  image : String := ""
  owner : String := ""
  created_at : String := ""
  updated_at : String := ""
  status : ItemStatus := ItemStatus.CREATED
deriving DecidableEq, Repr

/-- Contract state: the fields of class `BOSCommerce`.  `Vector` fields become
lists (append order preserved); `LookupMap` fields become partial functions. -/
structure Contract where
  contract_account : String
  account_ids : List String
  item_ids : List String
  accounts_items : String → Option (List String)
  items : String → Option Item

/-- `LookupMap.set`: point update of a partial function. -/
def mapSet {α : Type} (m : String → Option α) (k : String) (v : α) : String → Option α :=
  fun q => if q = k then some v else m q

/-- The host-environment inputs of a single external call (§6 collaborators):
caller identity, attached deposit and balance in yoctoNEAR, current account,
clock value in milliseconds. -/
structure Env where
  predecessor : String
  attachedDeposit : Nat
  currentAccount : String
  accountBalance : Nat
  now : Nat
deriving DecidableEq, Repr

/-- Structured result `{success, msg, item_id?}` returned by every call. -/
structure Res where
  success : Bool
  msg : String
  item_id : Option String := none
deriving DecidableEq, Repr

/-- Result of a caught `assert` failure: near-sdk-js `assert` throws
`Error("assertion failed: " + message)` and the method's `catch` returns
`{success: false, msg: e.message}`. -/
def assertFail (m : String) : Res :=
  { success := false, msg := "assertion failed: " ++ m }

/-- The account's currently owned id list (`accounts_items.get(a)`, `[]` when absent). -/
def ownedList (s : Contract) (a : String) : List String :=
  (s.accounts_items a).getD []

/-- Ownership-index add (the `accounts_items.get` / push / set block shared by
`create_item` and `purchase_item`): append `iid` to the account's list,
first enrolling the account in `account_ids` when it has no list yet. -/
def accountsAdd (s : Contract) (account iid : String) : Contract :=
  match s.accounts_items account with
  | some l => { s with accounts_items := mapSet s.accounts_items account (l ++ [iid]) }
  | none =>
    { s with
      account_ids := s.account_ids ++ [account]
      accounts_items := mapSet s.accounts_items account [iid] }

/-- Ownership-index remove (the `indexOf` / `splice` / set block of
`purchase_item`): drop the first occurrence of `iid` from the account's list;
the roster entry is kept, and nothing happens when the id is absent. -/
def accountsRemove (s : Contract) (account iid : String) : Contract :=
  match s.accounts_items account with
  | some l =>
    if iid ∈ l then { s with accounts_items := mapSet s.accounts_items account (l.erase iid) }
    else s
  | none => s

/-! ### The five operations (`contract.ts`) -/

/-- `MINIMUM_NEAR_DEPOSIT = BigInt("25" + "0".repeat(21))`. -/
def MINIMUM_NEAR_DEPOSIT : Nat := 25 * 10 ^ 21

/-- Message of the failed fixed-minimum-deposit guard in `create_item`. -/
def createDepositMsg (env : Env) : String :=
  "Not enough attached deposit. Minimum deposit is " ++ natRepr MINIMUM_NEAR_DEPOSIT
    ++ " yoctoNEAR and you attached " ++ natRepr env.attachedDeposit ++ " yoctoNEAR."

/-- The fresh `Item` record built by `create_item` (lines 36–44). -/
def newItem (env : Env) (name description image : JsVal) (item_id : String) : Item :=
  { id := item_id
    name := name.asString
    description := description.asString
    image := image.asString
    owner := env.predecessor
    created_at := natRepr env.now
    updated_at := natRepr env.now
    status := ItemStatus.CREATED }

/-- The state produced by the mutation block of `create_item` (lines 35–54):
push the new id, store the record, index it under the caller. -/
def createState (env : Env) (name description image : JsVal) (s : Contract) : Contract :=
  let item_id := natRepr s.item_ids.length
  let item := newItem env name description image item_id
  let s1 : Contract :=
    { s with
      item_ids := s.item_ids ++ [item_id]
      items := mapSet s.items item_id item }
  accountsAdd s1 item.owner item_id

/-- `create_item({name, description, image})`. -/
def create_item (env : Env) (name description image : JsVal) (s : Contract) :
    Res × Contract :=
  if ¬ name.truthy then (assertFail "Name is required", s)
  else if ¬ name.isString then (assertFail "Name must be a string", s)
  else if ¬ description.truthy then (assertFail "Description is required", s)
  else if ¬ description.isString then (assertFail "Description must be a string", s)
  else if ¬ image.truthy then (assertFail "Image is required", s)
  else if ¬ image.isString then (assertFail "Image must be a string", s)
  else if ¬ (MINIMUM_NEAR_DEPOSIT ≤ env.attachedDeposit) then
    (assertFail (createDepositMsg env), s)
  else
    ({ success := true, msg := "Item created successfully"
       item_id := some (natRepr s.item_ids.length) },
      createState env name description image s)

/-- `delete_item({item_id})`. -/
def delete_item (env : Env) (item_id : JsVal) (s : Contract) : Res × Contract :=
  if ¬ item_id.truthy then (assertFail "Item ID is required", s)
  else if ¬ item_id.isString then (assertFail "Item ID must be a string", s)
  else
    match s.items item_id.asString with
    | none => (assertFail "Item does not exist", s)
    | some item =>
      if ¬ (item.owner = env.predecessor) then
        (assertFail "Only the owner can delete an item", s)
      else if item.status = ItemStatus.FORSALE then
        (assertFail "Item is listed for sale. Please delist it first", s)
      else
        ({ success := true, msg := "Item deleted successfully" },
          { s with items := mapSet s.items item_id.asString ({ item with status := ItemStatus.DELETED }) })

/-- `list_item({item_id, price})`. -/
def list_item (env : Env) (item_id price : JsVal) (s : Contract) : Res × Contract :=
  if ¬ item_id.truthy then (assertFail "Item ID is required", s)
  else if ¬ item_id.isString then (assertFail "Item ID must be a string", s)
  else
    match s.items item_id.asString with
    | none => (assertFail "Item does not exist", s)
    | some item =>
      if item.status = ItemStatus.FORSALE then (assertFail "Item is already listed", s)
      else if ¬ (item.owner = env.predecessor) then
        (assertFail "Only the owner can list an item", s)
      else if ¬ price.truthy then (assertFail "Price is required", s)
      else if ¬ price.isNumber then (assertFail "Price must be a number", s)
      else if ¬ (0 < price.asNum.m) then (assertFail "Price must be greater than 0", s)
      else
        let item2 : Item := { item with price := price.asNum.render, status := ItemStatus.FORSALE }
        ({ success := true, msg := "Item listed successfully" },
          { s with items := mapSet s.items item_id.asString item2 })

/-- `delist_item({item_id})`. -/
def delist_item (env : Env) (item_id : JsVal) (s : Contract) : Res × Contract :=
  if ¬ item_id.truthy then (assertFail "Item ID is required", s)
  else if ¬ item_id.isString then (assertFail "Item ID must be a string", s)
  else
    match s.items item_id.asString with
    | none => (assertFail "Item does not exist", s)
    | some item =>
      if ¬ (item.owner = env.predecessor) then
        (assertFail "Only the owner can delist an item", s)
      else if ¬ (item.status = ItemStatus.FORSALE) then
        (assertFail "Item is not listed for sale", s)
      else
        let item2 : Item := { item with price := "", status := ItemStatus.CREATED }
        ({ success := true, msg := "Item delisted successfully" },
          { s with items := mapSet s.items item_id.asString item2 })

/-- An apostrophe, built from its code point (for message literals). -/
def apos : String := String.singleton (Char.ofNat 39)

/-- `internalSendNEAR`: the three settlement preconditions, then the transfer
promise.  `Except.error` embeds the thrown assertion (caught by the caller);
`Except.ok` carries the scheduled transfer (destination, amount). -/
def internalSendNEAR (env : Env) (receivingAccountId : String) (amount : Int) :
    Except String (String × Int) :=
  if ¬ (0 < amount) then Except.error ("assertion failed: The amount should be a positive number")
  else if receivingAccountId = env.currentAccount then
    Except.error ("assertion failed: Can" ++ apos ++ "t transfer to the contract itself")
  else if ¬ (amount < (env.accountBalance : Int)) then
    Except.error ("assertion failed: Not enough balance " ++ natRepr env.accountBalance
      ++ " to cover transfer of " ++ intRepr amount ++ " yoctoNEAR")
  else Except.ok (receivingAccountId, amount)

/-- Message of the failed price-derived minimum-deposit guard in `purchase_item`. -/
def purchaseDepositMsg (env : Env) (amt : Int) : String :=
  "Not enough attached deposit. Minimum deposit is " ++ intRepr amt
    ++ " yoctoNEAR and you attached " ++ natRepr env.attachedDeposit ++ " yoctoNEAR."

/-- Message of a thrown `DecimalError` on an unparsable price string. -/
def decimalErrMsg (p : String) : String := "[DecimalError] Invalid argument: " ++ p

/-- Message of a thrown `SyntaxError` on `BigInt` of a non-integral string. -/
def bigIntErrMsg (d : Dec) : String := "Cannot convert " ++ d.render ++ " to a BigInt"

/-- The purchase mutation block (lines 147–166): add to the buyer's index
entry first, then remove from the seller's, then overwrite the item with the
new owner, empty price and `SOLD` status. -/
def purchaseMutate (s : Contract) (buyer seller iid : String) (item : Item) : Contract :=
  let s1 := accountsAdd s buyer iid
  let s2 := accountsRemove s1 seller iid
  let item2 : Item := { item with owner := buyer, price := "", status := ItemStatus.SOLD }
  { s2 with items := mapSet s2.items iid item2 }

/-- `purchase_item({item_id})`.  The third component is the scheduled transfer,
`none` when no transfer was attempted. -/
def purchase_item (env : Env) (item_id : JsVal) (s : Contract) :
    Res × Contract × Option (String × Int) :=
  if ¬ item_id.truthy then (assertFail "Item ID is required", s, none)
  else if ¬ item_id.isString then (assertFail "Item ID must be a string", s, none)
  else
    match s.items item_id.asString with
    | none => (assertFail "Item does not exist", s, none)
    | some item =>
      if ¬ (item.status = ItemStatus.FORSALE) then
        (assertFail "Item is not listed for sale", s, none)
      else if item.owner = env.predecessor then
        (assertFail "You cannot purchase your own item", s, none)
      else
        let buyer := env.predecessor
        let seller := item.owner
        match parseDec item.price with
        | none => ({ success := false, msg := decimalErrMsg item.price }, s, none)
        | some priceDec =>
          let amount := mulPow24 priceDec
          match bigIntOfDec amount with
          | none => ({ success := false, msg := bigIntErrMsg amount }, s, none)
          | some amt =>
            if ¬ (amt ≤ (env.attachedDeposit : Int)) then
              (assertFail (purchaseDepositMsg env amt), s, none)
            else
              let s3 := purchaseMutate s buyer seller item_id.asString item
              match internalSendNEAR env seller amt with
              | Except.error m => ({ success := false, msg := m }, s3, none)
              | Except.ok tr =>
                ({ success := true, msg := "Item purchased successfully" }, s3, some tr)

/-- `get_items()`: the `for` loop over `item_ids`, pushing every stored item
whose status is not `DELETED`. -/
def get_items (s : Contract) : List Item :=
  s.item_ids.filterMap (fun iid =>
    match s.items iid with
    | some item => if item.status = ItemStatus.DELETED then none else some item
    | none => none)

/-! ### Operation steps and reachability -/

/-- One external state-mutating call with its arguments. -/
inductive Op where
  | create (name description image : JsVal)
  | deleteIt (item_id : JsVal)
  | listIt (item_id price : JsVal)
  | delistIt (item_id : JsVal)
  | purchase (item_id : JsVal)
deriving DecidableEq, Repr

/-- Whether the step is a `create_item` call. -/
def Op.isCreate : Op → Bool
  | .create .. => true
  | _ => false

/-- Whether the step is a `list_item` call. -/
def Op.isList : Op → Bool
  | .listIt .. => true
  | _ => false

/-- Apply one external call; the third component is the scheduled transfer. -/
def applyOp (env : Env) (op : Op) (s : Contract) : Res × Contract × Option (String × Int) :=
  match op with
  | .create n d i =>
    let p := create_item env n d i s
    (p.1, p.2, none)
  | .deleteIt iid =>
    let p := delete_item env iid s
    (p.1, p.2, none)
  | .listIt iid pr =>
    let p := list_item env iid pr s
    (p.1, p.2, none)
  | .delistIt iid =>
    let p := delist_item env iid s
    (p.1, p.2, none)
  | .purchase iid => purchase_item env iid s

/-- Freshly initialized contract (`init()` run by account `a`). -/
def initContract (a : String) : Contract :=
  { contract_account := a
    account_ids := []
    item_ids := []
    accounts_items := fun _ => none
    items := fun _ => none }

/-- States reachable from a freshly initialized contract by any sequence of
external calls under arbitrary environments. -/
inductive Reachable : Contract → Prop where
  | start (a : String) : Reachable (initContract a)
  | step {s : Contract} (env : Env) (op : Op) : Reachable s → Reachable (applyOp env op s).2.1

/-! ### The guard tables (§4.3): condition and message of each guard, in source order -/

/-- The message of the first guard in the list whose condition is false;
`none` when every guard passes.  (The operations evaluate their guards in
exactly this order and stop at the first failure.) -/
def firstFailMsg (gs : List (Bool × String)) : Option String :=
  (gs.find? (fun p => !p.1)).map (fun p => p.2)

/-- Evaluate a condition on the stored item under a key (vacuously true when
the key is absent: an earlier existence guard has then already failed). -/
def itemGuard (s : Contract) (iid : String) (f : Item → Bool) : Bool :=
  match s.items iid with
  | some item => f item
  | none => true

/-- Guards of `create_item` in source order. -/
def createGuards (env : Env) (nm de im : JsVal) : List (Bool × String) :=
  [(nm.truthy, "Name is required"),
   (nm.isString, "Name must be a string"),
   (de.truthy, "Description is required"),
   (de.isString, "Description must be a string"),
   (im.truthy, "Image is required"),
   (im.isString, "Image must be a string"),
   (decide (MINIMUM_NEAR_DEPOSIT ≤ env.attachedDeposit), createDepositMsg env)]

/-- Guards of `delete_item` in source order. -/
def deleteGuards (env : Env) (iidv : JsVal) (s : Contract) : List (Bool × String) :=
  [(iidv.truthy, "Item ID is required"),
   (iidv.isString, "Item ID must be a string"),
   ((s.items iidv.asString).isSome, "Item does not exist"),
   (itemGuard s iidv.asString (fun it => decide (it.owner = env.predecessor)),
     "Only the owner can delete an item"),
   (itemGuard s iidv.asString (fun it => !(decide (it.status = ItemStatus.FORSALE))),
     "Item is listed for sale. Please delist it first")]

/-- Guards of `list_item` in source order (status guard before ownership guard). -/
def listGuards (env : Env) (iidv pricev : JsVal) (s : Contract) : List (Bool × String) :=
  [(iidv.truthy, "Item ID is required"),
   (iidv.isString, "Item ID must be a string"),
   ((s.items iidv.asString).isSome, "Item does not exist"),
   (itemGuard s iidv.asString (fun it => !(decide (it.status = ItemStatus.FORSALE))),
     "Item is already listed"),
   (itemGuard s iidv.asString (fun it => decide (it.owner = env.predecessor)),
     "Only the owner can list an item"),
   (pricev.truthy, "Price is required"),
   (pricev.isNumber, "Price must be a number"),
   (decide (0 < pricev.asNum.m), "Price must be greater than 0")]

/-- Guards of `delist_item` in source order (ownership guard before status guard). -/
def delistGuards (env : Env) (iidv : JsVal) (s : Contract) : List (Bool × String) :=
  [(iidv.truthy, "Item ID is required"),
   (iidv.isString, "Item ID must be a string"),
   ((s.items iidv.asString).isSome, "Item does not exist"),
   (itemGuard s iidv.asString (fun it => decide (it.owner = env.predecessor)),
     "Only the owner can delist an item"),
   (itemGuard s iidv.asString (fun it => decide (it.status = ItemStatus.FORSALE)),
     "Item is not listed for sale")]

/-- The required minimum purchase amount computed from the stored price string,
`none` when the `Decimal` parse or the `BigInt` conversion would throw. -/
def purchaseAmt (s : Contract) (iid : String) : Option Int :=
  match s.items iid with
  | some item => (parseDec item.price).bind (fun d => bigIntOfDec (mulPow24 d))
  | none => none

/-- Guards of `purchase_item` in source order. -/
def purchaseGuards (env : Env) (iidv : JsVal) (s : Contract) : List (Bool × String) :=
  [(iidv.truthy, "Item ID is required"),
   (iidv.isString, "Item ID must be a string"),
   ((s.items iidv.asString).isSome, "Item does not exist"),
   (itemGuard s iidv.asString (fun it => decide (it.status = ItemStatus.FORSALE)),
     "Item is not listed for sale"),
   (itemGuard s iidv.asString (fun it => !(decide (it.owner = env.predecessor))),
     "You cannot purchase your own item"),
   (match purchaseAmt s iidv.asString with
    | some amt => decide (amt ≤ (env.attachedDeposit : Int))
    | none => true,
    match purchaseAmt s iidv.asString with
    | some amt => purchaseDepositMsg env amt
    | none => "")]

/-- The §4.3 guard table of an operation. -/
def opGuards (env : Env) (op : Op) (s : Contract) : List (Bool × String) :=
  match op with
  | .create nm de im => createGuards env nm de im
  | .deleteIt iidv => deleteGuards env iidv s
  | .listIt iidv pricev => listGuards env iidv pricev s
  | .delistIt iidv => delistGuards env iidv s
  | .purchase iidv => purchaseGuards env iidv s

/-! ### Concrete sample data (used to instantiate the general theorems) -/

/-- Environment of a call by `alice` attaching the fixed minimum deposit. -/
def envAlice : Env :=
  { predecessor := "alice", attachedDeposit := 25 * 10 ^ 21, currentAccount := "market"
    accountBalance := 10 ^ 27, now := 7 }

/-- Environment of a call by `bob` attaching `10^23` yoctoNEAR (= 0.1 NEAR). -/
def envBob : Env :=
  { predecessor := "bob", attachedDeposit := 10 ^ 23, currentAccount := "market"
    accountBalance := 10 ^ 27, now := 9 }

/-- Like `envBob`, but the contract balance is below the settlement amount. -/
def envBobLow : Env :=
  { predecessor := "bob", attachedDeposit := 10 ^ 23, currentAccount := "market"
    accountBalance := 10 ^ 22, now := 9 }

/-- State after `alice` creates item `"0"`. -/
def sCreated : Contract :=
  (create_item envAlice (.vStr "hat") (.vStr "a blue hat") (.vStr "img") (initContract "market")).2

/-- State after `alice` creates item `"0"` and lists it at price `0.1`. -/
def sListed : Contract := (list_item envAlice (.vStr "0") (.vNum ⟨1, 1⟩) sCreated).2

/-- State after `alice` creates item `"0"` and deletes it. -/
def sDeleted : Contract := (delete_item envAlice (.vStr "0") sCreated).2

/-- State after `alice` creates and lists item `"0"` and `bob` purchases it. -/
def sSold : Contract := (purchase_item envBob (.vStr "0") sListed).2.1

/-! ### Properties of the digit strings -/

theorem charVal_digitChar {d : Nat} (h : d < 10) : charVal (digitChar d) = d := by
  interval_cases d <;> decide

theorem digitsVal_concat (l : List Char) (c : Char) :
    digitsVal (l ++ [c]) = 10 * digitsVal l + charVal c := by
  simp [digitsVal, List.foldl_append]

theorem digitsVal_natDigitsFuel : ∀ (f n : Nat), n ≤ f → digitsVal (natDigitsFuel f n) = n := by
  intro f
  induction f with
  | zero =>
    intro n hn
    interval_cases n
    simp [natDigitsFuel, digitsVal]
  | succ f ih =>
    intro n hn
    by_cases h0 : n = 0
    · subst h0; simp [natDigitsFuel, digitsVal]
    · have hdiv : n / 10 < n := Nat.div_lt_self (Nat.pos_of_ne_zero h0) (by norm_num)
      have hle : n / 10 ≤ f := by omega
      calc digitsVal (natDigitsFuel (f + 1) n)
          = digitsVal (natDigitsFuel f (n / 10) ++ [digitChar (n % 10)]) := by
            simp [natDigitsFuel, h0]
        _ = 10 * digitsVal (natDigitsFuel f (n / 10)) + charVal (digitChar (n % 10)) :=
            digitsVal_concat _ _
        _ = 10 * (n / 10) + n % 10 := by
            rw [ih _ hle, charVal_digitChar (Nat.mod_lt _ (by norm_num))]
        _ = n := by omega

theorem decodeNat_natRepr (n : Nat) : decodeNat (natRepr n) = n := by
  by_cases h0 : n = 0
  · subst h0; decide
  · have : (natRepr n).data = natDigitsFuel n n := by simp [natRepr, h0]
    rw [decodeNat, this, digitsVal_natDigitsFuel n n le_rfl]

theorem natRepr_injective {a b : Nat} (h : natRepr a = natRepr b) : a = b := by
  have := decodeNat_natRepr a
  rw [h, decodeNat_natRepr] at this
  exact this.symm

theorem natDigitsFuel_ne_nil {f n : Nat} (h : n ≠ 0) : natDigitsFuel (f + 1) n ≠ [] := by
  simp [natDigitsFuel, h]

theorem natRepr_ne_empty (n : Nat) : natRepr n ≠ "" := by
  by_cases h0 : n = 0
  · subst h0; decide
  · obtain ⟨f, rfl⟩ := Nat.exists_eq_succ_of_ne_zero h0
    intro h
    have : natDigitsFuel (f + 1) (f + 1) = [] := by
      have := congrArg String.data h
      simpa [natRepr] using this
    exact natDigitsFuel_ne_nil (Nat.succ_ne_zero f) this

theorem append_ne_empty_of_right {a b : String} (h : b ≠ "") : a ++ b ≠ "" := by
  intro hab
  apply h
  have : a.data ++ b.data = [] := congrArg String.data hab
  have hb : b.data = [] := (List.append_eq_nil.mp this).2
  cases b
  simp_all

theorem intRepr_ne_empty (m : Int) : intRepr m ≠ "" := by
  unfold intRepr
  split
  · exact append_ne_empty_of_right (natRepr_ne_empty _)
  · exact natRepr_ne_empty _

theorem natDigitsPad_ne_empty (n w : Nat) : natDigitsPad n w ≠ "" :=
  append_ne_empty_of_right (natRepr_ne_empty _)

theorem render_ne_empty (d : Dec) : d.render ≠ "" := by
  unfold Dec.render
  simp only []
  split
  · exact intRepr_ne_empty _
  · exact append_ne_empty_of_right (natDigitsPad_ne_empty _ _)

/-! ### Ownership-index lemmas -/

theorem items_accountsAdd (s : Contract) (a i : String) : (accountsAdd s a i).items = s.items := by
  rcases h : s.accounts_items a with _ | l <;> simp [accountsAdd, h]

theorem item_ids_accountsAdd (s : Contract) (a i : String) :
    (accountsAdd s a i).item_ids = s.item_ids := by
  rcases h : s.accounts_items a with _ | l <;> simp [accountsAdd, h]

theorem items_accountsRemove (s : Contract) (a i : String) :
    (accountsRemove s a i).items = s.items := by
  rcases h : s.accounts_items a with _ | l <;> simp [accountsRemove, h]
  split <;> rfl

theorem item_ids_accountsRemove (s : Contract) (a i : String) :
    (accountsRemove s a i).item_ids = s.item_ids := by
  rcases h : s.accounts_items a with _ | l <;> simp [accountsRemove, h]
  split <;> rfl

theorem ownedList_accountsAdd (s : Contract) (acct iid b : String) :
    ownedList (accountsAdd s acct iid) b =
      if b = acct then ownedList s acct ++ [iid] else ownedList s b := by
  rcases h : s.accounts_items acct with _ | l
  · by_cases hb : b = acct <;> simp [accountsAdd, h, ownedList, mapSet, hb]
  · by_cases hb : b = acct <;> simp [accountsAdd, h, ownedList, mapSet, hb]

theorem ownedList_accountsRemove (s : Contract) (acct iid b : String) :
    ownedList (accountsRemove s acct iid) b =
      if b = acct then (ownedList s acct).erase iid else ownedList s b := by
  rcases h : s.accounts_items acct with _ | l
  · by_cases hb : b = acct <;> simp [accountsRemove, h, ownedList, mapSet, hb]
  · by_cases hmem : iid ∈ l
    · by_cases hb : b = acct <;> simp [accountsRemove, h, hmem, ownedList, mapSet, hb]
    · have : l.erase iid = l := List.erase_of_not_mem hmem
      by_cases hb : b = acct <;> simp [accountsRemove, h, hmem, ownedList, mapSet, hb, this]

/-! ### The ledger invariant and its preservation -/

/-- The inductive invariant of the ledger: the id list enumerates the ids `0..n-1`
in order, the item store's domain is exactly the id list, stored ids agree with
their key, the price string is non-empty exactly on `FORSALE` items, the
ownership index lists an id under an account exactly when the stored item's
`owner` field is that account, and the per-account lists are duplicate-free. -/
structure Inv (s : Contract) : Prop where
  ids_shape : s.item_ids = (List.range s.item_ids.length).map natRepr
  dom : ∀ iid, (s.items iid).isSome ↔ iid ∈ s.item_ids
  idf : ∀ iid it, s.items iid = some it → it.id = iid
  price_inv : ∀ iid it, s.items iid = some it → (it.price ≠ "" ↔ it.status = ItemStatus.FORSALE)
  own : ∀ a iid, iid ∈ ownedList s a ↔ ∃ it, s.items iid = some it ∧ it.owner = a
  nodup : ∀ a, (ownedList s a).Nodup

theorem inv_initContract (a : String) : Inv (initContract a) := by
  refine ⟨?_, ?_, ?_, ?_, ?_, ?_⟩ <;> simp [initContract, ownedList]

theorem mapSet_same {α : Type} (m : String → Option α) (k : String) (v : α) :
    mapSet m k v k = some v := by
  simp [mapSet]

theorem mapSet_other {α : Type} (m : String → Option α) {k q : String} (v : α) (h : q ≠ k) :
    mapSet m k v q = m q := by
  simp [mapSet, h]

theorem fresh_id {s : Contract} (h : Inv s) : s.items (natRepr s.item_ids.length) = none := by
  rcases hx : s.items (natRepr s.item_ids.length) with _ | it
  · rfl
  · exfalso
    have hs : (s.items (natRepr s.item_ids.length)).isSome := by rw [hx]; rfl
    have hmem := (h.dom _).mp hs
    have hmem2 : natRepr s.item_ids.length ∈ (List.range s.item_ids.length).map natRepr :=
      h.ids_shape ▸ hmem
    obtain ⟨k, hk, hkr⟩ := List.mem_map.mp hmem2
    have hkn := natRepr_injective hkr
    subst hkn
    exact absurd (List.mem_range.mp hk) (lt_irrefl _)

theorem inv_createState (env : Env) (nm de im : JsVal) {s : Contract} (h : Inv s) :
    Inv (createState env nm de im s) := by
  have hfresh : s.items (natRepr s.item_ids.length) = none := fresh_id h
  have hnotown : ∀ a, natRepr s.item_ids.length ∉ ownedList s a := by
    intro a ha
    obtain ⟨it, hit, _⟩ := (h.own a _).mp ha
    rw [hfresh] at hit
    exact Option.noConfusion hit
  have hitems : (createState env nm de im s).items
      = mapSet s.items (natRepr s.item_ids.length)
          (newItem env nm de im (natRepr s.item_ids.length)) := by
    rw [createState, items_accountsAdd]
  have hids : (createState env nm de im s).item_ids
      = s.item_ids ++ [natRepr s.item_ids.length] := by
    rw [createState, item_ids_accountsAdd]
  have howned : ∀ b, ownedList (createState env nm de im s) b =
      if b = env.predecessor then ownedList s env.predecessor ++ [natRepr s.item_ids.length]
      else ownedList s b := by
    intro b
    rw [createState, ownedList_accountsAdd]
    rfl
  refine ⟨?_, ?_, ?_, ?_, ?_, ?_⟩
  · rw [hids]
    simp only [List.length_append, List.length_singleton]
    rw [List.range_succ, List.map_append]
    congr 1
    exact h.ids_shape
  · intro iid
    rw [hitems, hids]
    by_cases hi : iid = natRepr s.item_ids.length
    · subst hi
      simp only [mapSet_same]
      simp
    · rw [mapSet_other _ _ hi]
      simp only [List.mem_append, List.mem_singleton, hi, or_false]
      exact h.dom iid
  · intro iid it hit
    rw [hitems] at hit
    by_cases hi : iid = natRepr s.item_ids.length
    · subst hi
      simp only [mapSet_same] at hit
      cases hit
      rfl
    · rw [mapSet_other _ _ hi] at hit
      exact h.idf iid it hit
  · intro iid it hit
    rw [hitems] at hit
    by_cases hi : iid = natRepr s.item_ids.length
    · subst hi
      simp only [mapSet_same] at hit
      cases hit
      simp [newItem]
    · rw [mapSet_other _ _ hi] at hit
      exact h.price_inv iid it hit
  · intro a iid
    rw [howned, hitems]
    by_cases hi : iid = natRepr s.item_ids.length
    · subst hi
      simp only [mapSet_same]
      by_cases hb : a = env.predecessor
      · rw [if_pos hb]
        subst hb
        simp [newItem]
      · rw [if_neg hb]
        constructor
        · intro hmem
          exact absurd hmem (hnotown a)
        · rintro ⟨it, hit, hown⟩
          cases hit
          exact absurd hown.symm (by simpa [newItem] using hb)
    · rw [mapSet_other _ _ hi]
      by_cases hb : a = env.predecessor
      · rw [if_pos hb]
        subst hb
        simp only [List.mem_append, List.mem_singleton, hi, or_false]
        exact h.own _ iid
      · rw [if_neg hb]
        exact h.own a iid
  · intro a
    rw [howned]
    by_cases hb : a = env.predecessor
    · rw [if_pos hb, ← List.concat_eq_append]
      exact List.Nodup.concat (hnotown _) (h.nodup _)
    · rw [if_neg hb]
      exact h.nodup a

theorem inv_updateItem {s : Contract} (h : Inv s) {iid : String} {item item2 : Item}
    (hit : s.items iid = some item)
    (hid : item2.id = item.id) (hown : item2.owner = item.owner)
    (hprice : item2.price ≠ "" ↔ item2.status = ItemStatus.FORSALE) :
    Inv { s with items := mapSet s.items iid item2 } := by
  have hsome : (s.items iid).isSome := by rw [hit]; rfl
  have hidmem : iid ∈ s.item_ids := (h.dom iid).mp hsome
  have howned : ∀ b, ownedList { s with items := mapSet s.items iid item2 } b = ownedList s b :=
    fun _ => rfl
  refine ⟨h.ids_shape, ?_, ?_, ?_, ?_, ?_⟩
  · intro q
    by_cases hq : q = iid
    · subst hq
      simp only [mapSet_same]
      simpa using hidmem
    · simp only [mapSet_other _ _ hq]
      exact h.dom q
  · intro q it hq
    by_cases hqi : q = iid
    · subst hqi
      simp only [mapSet_same] at hq
      cases hq
      rw [hid]
      exact h.idf _ _ hit
    · simp only [mapSet_other _ _ hqi] at hq
      exact h.idf _ _ hq
  · intro q it hq
    by_cases hqi : q = iid
    · subst hqi
      simp only [mapSet_same] at hq
      cases hq
      exact hprice
    · simp only [mapSet_other _ _ hqi] at hq
      exact h.price_inv _ _ hq
  · intro a q
    rw [howned]
    by_cases hqi : q = iid
    · subst hqi
      rw [h.own a]
      constructor
      · rintro ⟨it, hit2, ho⟩
        rw [hit] at hit2
        cases hit2
        exact ⟨item2, by simp [mapSet_same], by rw [hown]; exact ho⟩
      · rintro ⟨it, hit2, ho⟩
        simp only [mapSet_same] at hit2
        cases hit2
        exact ⟨item, hit, by rw [← hown]; exact ho⟩
    · simp only [mapSet_other _ _ hqi]
      exact h.own a q
  · intro a
    rw [howned]
    exact h.nodup a

theorem inv_delete_item (env : Env) (iidv : JsVal) {s : Contract} (h : Inv s) :
    Inv (delete_item env iidv s).2 := by
  unfold delete_item
  split
  · exact h
  split
  · exact h
  split
  · exact h
  next item hit =>
    split
    · exact h
    split
    · exact h
    next hfs =>
      have hpr : item.price = "" := by
        by_contra hne
        exact hfs ((h.price_inv _ _ hit).mp hne)
      exact inv_updateItem h hit rfl rfl (by simp [hpr])

theorem inv_list_item (env : Env) (iidv pricev : JsVal) {s : Contract} (h : Inv s) :
    Inv (list_item env iidv pricev s).2 := by
  unfold list_item
  split
  · exact h
  split
  · exact h
  split
  · exact h
  next item hit =>
    split
    · exact h
    split
    · exact h
    split
    · exact h
    split
    · exact h
    split
    · exact h
    exact inv_updateItem h hit rfl rfl (by simp [render_ne_empty])

theorem inv_delist_item (env : Env) (iidv : JsVal) {s : Contract} (h : Inv s) :
    Inv (delist_item env iidv s).2 := by
  unfold delist_item
  split
  · exact h
  split
  · exact h
  split
  · exact h
  next item hit =>
    split
    · exact h
    split
    · exact h
    exact inv_updateItem h hit rfl rfl (by simp)

theorem inv_purchaseMutate {s : Contract} (h : Inv s) {iid buyer : String} {item : Item}
    (hit : s.items iid = some item) (hne : item.owner ≠ buyer) :
    Inv (purchaseMutate s buyer item.owner iid item) := by
  have hsome : (s.items iid).isSome := by rw [hit]; rfl
  have hidmem : iid ∈ s.item_ids := (h.dom iid).mp hsome
  have hmem_seller : iid ∈ ownedList s item.owner := (h.own _ _).mpr ⟨item, hit, rfl⟩
  have hnot_buyer : iid ∉ ownedList s buyer := by
    intro hmem
    obtain ⟨it, hit2, ho⟩ := (h.own _ _).mp hmem
    rw [hit] at hit2
    cases hit2
    exact hne ho
  have hitems : (purchaseMutate s buyer item.owner iid item).items
      = mapSet s.items iid
          ({ item with owner := buyer, price := "", status := ItemStatus.SOLD }) := by
    show mapSet (accountsRemove (accountsAdd s buyer iid) item.owner iid).items iid _ = _
    rw [items_accountsRemove, items_accountsAdd]
  have hids : (purchaseMutate s buyer item.owner iid item).item_ids = s.item_ids := by
    show (accountsRemove (accountsAdd s buyer iid) item.owner iid).item_ids = _
    rw [item_ids_accountsRemove, item_ids_accountsAdd]
  have hlist1 : ownedList (accountsAdd s buyer iid) item.owner = ownedList s item.owner := by
    rw [ownedList_accountsAdd, if_neg hne]
  have howned : ∀ b, ownedList (purchaseMutate s buyer item.owner iid item) b
      = if b = item.owner then (ownedList s item.owner).erase iid
        else if b = buyer then ownedList s buyer ++ [iid]
        else ownedList s b := by
    intro b
    show ownedList (accountsRemove (accountsAdd s buyer iid) item.owner iid) b = _
    simp only [ownedList_accountsRemove, ownedList_accountsAdd, if_neg hne]
  refine ⟨?_, ?_, ?_, ?_, ?_, ?_⟩
  · rw [hids]
    exact h.ids_shape
  · intro q
    rw [hitems, hids]
    by_cases hq : q = iid
    · subst hq
      simp only [mapSet_same]
      simpa using hidmem
    · simp only [mapSet_other _ _ hq]
      exact h.dom q
  · intro q it hq
    rw [hitems] at hq
    by_cases hqi : q = iid
    · subst hqi
      simp only [mapSet_same] at hq
      cases hq
      simpa using h.idf q item hit
    · simp only [mapSet_other _ _ hqi] at hq
      exact h.idf _ _ hq
  · intro q it hq
    rw [hitems] at hq
    by_cases hqi : q = iid
    · subst hqi
      simp only [mapSet_same] at hq
      cases hq
      simp
    · simp only [mapSet_other _ _ hqi] at hq
      exact h.price_inv _ _ hq
  · intro a q
    rw [howned, hitems]
    by_cases hqi : q = iid
    · subst hqi
      simp only [mapSet_same]
      by_cases hba : a = item.owner
      · rw [if_pos hba]
        constructor
        · intro hmem
          exact absurd hmem ((h.nodup _).not_mem_erase)
        · rintro ⟨it, hit2, ho⟩
          cases hit2
          exact absurd (hba.symm.trans ho.symm) hne
      · rw [if_neg hba]
        by_cases hbb : a = buyer
        · rw [if_pos hbb]
          simp only [List.mem_append, List.mem_singleton, or_true, true_iff]
          exact ⟨_, rfl, hbb.symm⟩
        · rw [if_neg hbb]
          constructor
          · intro hmem
            obtain ⟨it, hit2, ho⟩ := (h.own _ _).mp hmem
            rw [hit] at hit2
            cases hit2
            exact absurd ho.symm hba
          · rintro ⟨it, hit2, ho⟩
            cases hit2
            exact absurd (show a = buyer by simpa using ho.symm) hbb
    · simp only [mapSet_other _ _ hqi]
      by_cases hba : a = item.owner
      · rw [if_pos hba, List.mem_erase_of_ne hqi, hba]
        exact h.own _ q
      · rw [if_neg hba]
        by_cases hbb : a = buyer
        · rw [if_pos hbb, hbb]
          simp only [List.mem_append, List.mem_singleton, hqi, or_false]
          exact h.own _ q
        · rw [if_neg hbb]
          exact h.own a q
  · intro a
    rw [howned]
    by_cases hba : a = item.owner
    · rw [if_pos hba]
      exact (h.nodup _).erase _
    · rw [if_neg hba]
      by_cases hbb : a = buyer
      · rw [if_pos hbb, ← List.concat_eq_append]
        exact List.Nodup.concat hnot_buyer (h.nodup _)
      · rw [if_neg hbb]
        exact h.nodup a

theorem inv_purchase_item (env : Env) (iidv : JsVal) {s : Contract} (h : Inv s) :
    Inv (purchase_item env iidv s).2.1 := by
  unfold purchase_item
  split
  · exact h
  split
  · exact h
  split
  · exact h
  next item hit =>
    split
    · exact h
    split
    · exact h
    next hne =>
      split
      · exact h
      dsimp only
      split
      · exact h
      split
      · exact h
      split
      · exact inv_purchaseMutate h hit hne
      · exact inv_purchaseMutate h hit hne

theorem inv_applyOp (env : Env) (op : Op) {s : Contract} (h : Inv s) :
    Inv (applyOp env op s).2.1 := by
  cases op with
  | create nm de im =>
    show Inv (create_item env nm de im s).2
    unfold create_item
    split
    · exact h
    split
    · exact h
    split
    · exact h
    split
    · exact h
    split
    · exact h
    split
    · exact h
    split
    · exact h
    exact inv_createState env nm de im h
  | deleteIt iid => exact inv_delete_item env iid h
  | listIt iid pr => exact inv_list_item env iid pr h
  | delistIt iid => exact inv_delist_item env iid h
  | purchase iid => exact inv_purchase_item env iid h

theorem inv_of_reachable {s : Contract} (h : Reachable s) : Inv s := by
  induction h with
  | start a => exact inv_initContract a
  | step env op _ ih => exact inv_applyOp env op ih

/-! ### Guard-failure behaviour of each operation -/

theorem firstFailMsg_cons (b : Bool) (msg : String) (rest : List (Bool × String)) :
    firstFailMsg ((b, msg) :: rest) = if b then firstFailMsg rest else some msg := by
  cases b <;> simp [firstFailMsg]

theorem create_item_guard_fail (env : Env) (nm de im : JsVal) (s : Contract) {m : String}
    (hm : firstFailMsg (createGuards env nm de im) = some m) :
    create_item env nm de im s = (assertFail m, s) := by
  simp only [createGuards, firstFailMsg_cons] at hm
  unfold create_item
  cases h1 : nm.truthy
  · simp [h1] at hm
    subst hm
    simp [h1]
  cases h2 : nm.isString
  · simp [h1, h2] at hm
    subst hm
    simp [h1, h2]
  cases h3 : de.truthy
  · simp [h1, h2, h3] at hm
    subst hm
    simp [h1, h2, h3]
  cases h4 : de.isString
  · simp [h1, h2, h3, h4] at hm
    subst hm
    simp [h1, h2, h3, h4]
  cases h5 : im.truthy
  · simp [h1, h2, h3, h4, h5] at hm
    subst hm
    simp [h1, h2, h3, h4, h5]
  cases h6 : im.isString
  · simp [h1, h2, h3, h4, h5, h6] at hm
    subst hm
    simp [h1, h2, h3, h4, h5, h6]
  by_cases h7 : MINIMUM_NEAR_DEPOSIT ≤ env.attachedDeposit
  · simp [h1, h2, h3, h4, h5, h6, h7, firstFailMsg] at hm
  · simp [h1, h2, h3, h4, h5, h6, h7] at hm
    subst hm
    simp [h1, h2, h3, h4, h5, h6, h7]

theorem delete_item_guard_fail (env : Env) (iidv : JsVal) (s : Contract) {m : String}
    (hm : firstFailMsg (deleteGuards env iidv s) = some m) :
    delete_item env iidv s = (assertFail m, s) := by
  simp only [deleteGuards, firstFailMsg_cons] at hm
  unfold delete_item
  cases h1 : iidv.truthy
  · simp [h1] at hm
    subst hm
    simp [h1]
  cases h2 : iidv.isString
  · simp [h1, h2] at hm
    subst hm
    simp [h1, h2]
  rcases h3 : s.items iidv.asString with _ | item
  · simp [h1, h2, h3] at hm
    subst hm
    simp [h1, h2, h3]
  by_cases h4 : item.owner = env.predecessor
  · by_cases h5 : item.status = ItemStatus.FORSALE
    · simp [h1, h2, h3, h4, h5, itemGuard] at hm
      subst hm
      simp [h1, h2, h3, h4, h5]
    · simp [h1, h2, h3, h4, h5, itemGuard, firstFailMsg] at hm
  · simp [h1, h2, h3, h4, itemGuard] at hm
    subst hm
    simp [h1, h2, h3, h4]

theorem list_item_guard_fail (env : Env) (iidv pricev : JsVal) (s : Contract) {m : String}
    (hm : firstFailMsg (listGuards env iidv pricev s) = some m) :
    list_item env iidv pricev s = (assertFail m, s) := by
  simp only [listGuards, firstFailMsg_cons] at hm
  unfold list_item
  cases h1 : iidv.truthy
  · simp [h1] at hm
    subst hm
    simp [h1]
  cases h2 : iidv.isString
  · simp [h1, h2] at hm
    subst hm
    simp [h1, h2]
  rcases h3 : s.items iidv.asString with _ | item
  · simp [h1, h2, h3] at hm
    subst hm
    simp [h1, h2, h3]
  by_cases h4 : item.status = ItemStatus.FORSALE
  · simp [h1, h2, h3, h4, itemGuard] at hm
    subst hm
    simp [h1, h2, h3, h4]
  by_cases h5 : item.owner = env.predecessor
  · cases h6 : pricev.truthy
    · simp [h1, h2, h3, h4, h5, h6, itemGuard] at hm
      subst hm
      simp [h1, h2, h3, h4, h5, h6]
    cases h7 : pricev.isNumber
    · simp [h1, h2, h3, h4, h5, h6, h7, itemGuard] at hm
      subst hm
      simp [h1, h2, h3, h4, h5, h6, h7]
    by_cases h8 : 0 < pricev.asNum.m
    · simp [h1, h2, h3, h4, h5, h6, h7, h8, itemGuard, firstFailMsg] at hm
    · simp [h1, h2, h3, h4, h5, h6, h7, h8, itemGuard] at hm
      subst hm
      simp [h1, h2, h3, h4, h5, h6, h7, h8]
  · simp [h1, h2, h3, h4, h5, itemGuard] at hm
    subst hm
    simp [h1, h2, h3, h4, h5]

theorem delist_item_guard_fail (env : Env) (iidv : JsVal) (s : Contract) {m : String}
    (hm : firstFailMsg (delistGuards env iidv s) = some m) :
    delist_item env iidv s = (assertFail m, s) := by
  simp only [delistGuards, firstFailMsg_cons] at hm
  unfold delist_item
  cases h1 : iidv.truthy
  · simp [h1] at hm
    subst hm
    simp [h1]
  cases h2 : iidv.isString
  · simp [h1, h2] at hm
    subst hm
    simp [h1, h2]
  rcases h3 : s.items iidv.asString with _ | item
  · simp [h1, h2, h3] at hm
    subst hm
    simp [h1, h2, h3]
  by_cases h4 : item.owner = env.predecessor
  · by_cases h5 : item.status = ItemStatus.FORSALE
    · simp [h1, h2, h3, h4, h5, itemGuard, firstFailMsg] at hm
    · simp [h1, h2, h3, h4, h5, itemGuard] at hm
      subst hm
      simp [h1, h2, h3, h4, h5]
  · simp [h1, h2, h3, h4, itemGuard] at hm
    subst hm
    simp [h1, h2, h3, h4]

theorem purchase_item_guard_fail (env : Env) (iidv : JsVal) (s : Contract) {m : String}
    (hm : firstFailMsg (purchaseGuards env iidv s) = some m) :
    purchase_item env iidv s = (assertFail m, s, none) := by
  simp only [purchaseGuards, firstFailMsg_cons] at hm
  unfold purchase_item
  cases h1 : iidv.truthy
  · simp [h1] at hm
    subst hm
    simp [h1]
  cases h2 : iidv.isString
  · simp [h1, h2] at hm
    subst hm
    simp [h1, h2]
  rcases h3 : s.items iidv.asString with _ | item
  · simp [h1, h2, h3] at hm
    subst hm
    simp [h1, h2, h3]
  by_cases h4 : item.status = ItemStatus.FORSALE
  · by_cases h5 : item.owner = env.predecessor
    · simp [h1, h2, h3, h4, h5, itemGuard] at hm
      subst hm
      simp [h1, h2, h3, h4, h5]
    · rcases hp : parseDec item.price with _ | d
      · simp [h1, h2, h3, h4, h5, itemGuard, purchaseAmt, hp, firstFailMsg] at hm
      rcases hb : bigIntOfDec (mulPow24 d) with _ | amt
      · simp [h1, h2, h3, h4, h5, itemGuard, purchaseAmt, hp, hb, firstFailMsg] at hm
      by_cases h6 : amt ≤ (env.attachedDeposit : Int)
      · simp [h1, h2, h3, h4, h5, h6, itemGuard, purchaseAmt, hp, hb, firstFailMsg] at hm
      · simp [h1, h2, h3, h4, h5, h6, itemGuard, purchaseAmt, hp, hb] at hm
        subst hm
        simp [h1, h2, h3, h4, h5, h6, hp, hb]
  · simp [h1, h2, h3, h4, itemGuard] at hm
    subst hm
    simp [h1, h2, h3, h4]

/-! ### Exactness of the settlement arithmetic -/

theorem stripZeros_val : ∀ (e : Nat) (m : Int) (p : Int × Nat), stripZeros m e = p →
    (p.1 : ℚ) / 10 ^ p.2 = (m : ℚ) / 10 ^ e := by
  intro e
  induction e with
  | zero =>
    intro m p hp
    cases hp
    rfl
  | succ e ih =>
    intro m p hp
    rw [stripZeros] at hp
    split at hp
    · have h10 : (10 : ℤ) ∣ m := Int.dvd_of_emod_eq_zero (by assumption)
      rw [ih (m / 10) p hp]
      obtain ⟨k, rfl⟩ := h10
      rw [Int.mul_ediv_cancel_left _ (by norm_num)]
      push_cast
      rw [pow_succ]
      field_simp
      ring
    · cases hp
      rfl

theorem bigIntOfDec_mulPow24_val {d : Dec} {n : Int} (h : bigIntOfDec (mulPow24 d) = some n) :
    (n : ℚ) = decVal d * 10 ^ 24 := by
  unfold mulPow24 bigIntOfDec at h
  by_cases he : d.e ≤ 24
  · rw [if_pos he] at h
    simp [stripZeros] at h
    subst h
    rw [decVal]
    push_cast
    rw [div_mul_eq_mul_div, eq_div_iff (by positivity), mul_assoc, ← pow_add,
      Nat.sub_add_cancel he]
  · rw [if_neg he] at h
    dsimp only at h
    split at h
    · cases h
      have hv := stripZeros_val (d.e - 24) d.m _ rfl
      rw [(by assumption : (stripZeros d.m (d.e - 24)).2 = 0)] at hv
      rw [pow_zero, div_one] at hv
      rw [hv, decVal]
      have h24 : (10 : ℚ) ^ d.e = 10 ^ (d.e - 24) * 10 ^ 24 := by
        rw [← pow_add, Nat.sub_add_cancel (by omega)]
      rw [h24]
      field_simp
      ring
    · exact Option.noConfusion h

/-! ### The query surface -/

theorem mem_get_items {s : Contract} {it : Item} :
    it ∈ get_items s ↔
      ∃ iid, iid ∈ s.item_ids ∧ s.items iid = some it ∧ it.status ≠ ItemStatus.DELETED := by
  unfold get_items
  rw [List.mem_filterMap]
  constructor
  · rintro ⟨iid, hmem, hf⟩
    rcases hx : s.items iid with _ | item
    · simp [hx] at hf
    · simp only [hx] at hf
      by_cases hd : item.status = ItemStatus.DELETED
      · rw [if_pos hd] at hf
        cases hf
      · rw [if_neg hd] at hf
        cases hf
        exact ⟨iid, hmem, hx, hd⟩
  · rintro ⟨iid, hmem, hx, hd⟩
    refine ⟨iid, hmem, ?_⟩
    simp only [hx]
    rw [if_neg hd]

theorem get_items_eq_range {s : Contract} (h : Inv s) :
    get_items s = (List.range s.item_ids.length).filterMap (fun k =>
      match s.items (natRepr k) with
      | some it => if it.status = ItemStatus.DELETED then none else some it
      | none => none) := by
  unfold get_items
  conv_lhs => rw [h.ids_shape]
  rw [List.filterMap_map]
  rfl

/-! ### Anatomy of each operation's item-store effect -/

theorem create_item_items (env : Env) (nm de im : JsVal) (s : Contract) :
    (create_item env nm de im s).2.items = s.items
    ∨ (create_item env nm de im s).2.items
        = mapSet s.items (natRepr s.item_ids.length)
            (newItem env nm de im (natRepr s.item_ids.length)) := by
  unfold create_item
  split
  · exact Or.inl rfl
  split
  · exact Or.inl rfl
  split
  · exact Or.inl rfl
  split
  · exact Or.inl rfl
  split
  · exact Or.inl rfl
  split
  · exact Or.inl rfl
  split
  · exact Or.inl rfl
  refine Or.inr ?_
  show (createState env nm de im s).items = _
  rw [createState, items_accountsAdd]

theorem delete_item_items (env : Env) (iidv : JsVal) (s : Contract) :
    (delete_item env iidv s).2.items = s.items
    ∨ ∃ item0, s.items iidv.asString = some item0 ∧ item0.owner = env.predecessor
        ∧ item0.status ≠ ItemStatus.FORSALE
        ∧ (delete_item env iidv s).2.items
            = mapSet s.items iidv.asString ({ item0 with status := ItemStatus.DELETED }) := by
  unfold delete_item
  split
  · exact Or.inl rfl
  split
  · exact Or.inl rfl
  split
  · exact Or.inl rfl
  next item hit =>
    split
    · exact Or.inl rfl
    next hown =>
      split
      · exact Or.inl rfl
      next hst => exact Or.inr ⟨item, hit, not_not.mp hown, hst, rfl⟩

theorem list_item_items (env : Env) (iidv pricev : JsVal) (s : Contract) :
    (list_item env iidv pricev s).2.items = s.items
    ∨ ∃ item0, s.items iidv.asString = some item0 ∧ item0.owner = env.predecessor
        ∧ item0.status ≠ ItemStatus.FORSALE
        ∧ (list_item env iidv pricev s).2.items
            = mapSet s.items iidv.asString
                ({ item0 with price := pricev.asNum.render, status := ItemStatus.FORSALE }) := by
  unfold list_item
  split
  · exact Or.inl rfl
  split
  · exact Or.inl rfl
  split
  · exact Or.inl rfl
  next item hit =>
    split
    · exact Or.inl rfl
    next hst =>
      split
      · exact Or.inl rfl
      next hown =>
        split
        · exact Or.inl rfl
        split
        · exact Or.inl rfl
        split
        · exact Or.inl rfl
        exact Or.inr ⟨item, hit, not_not.mp hown, hst, rfl⟩

theorem delist_item_items (env : Env) (iidv : JsVal) (s : Contract) :
    (delist_item env iidv s).2.items = s.items
    ∨ ∃ item0, s.items iidv.asString = some item0 ∧ item0.owner = env.predecessor
        ∧ item0.status = ItemStatus.FORSALE
        ∧ (delist_item env iidv s).2.items
            = mapSet s.items iidv.asString
                ({ item0 with price := "", status := ItemStatus.CREATED }) := by
  unfold delist_item
  split
  · exact Or.inl rfl
  split
  · exact Or.inl rfl
  split
  · exact Or.inl rfl
  next item hit =>
    split
    · exact Or.inl rfl
    next hown =>
      split
      · exact Or.inl rfl
      next hst => exact Or.inr ⟨item, hit, not_not.mp hown, not_not.mp hst, rfl⟩

theorem purchase_item_items (env : Env) (iidv : JsVal) (s : Contract) :
    (purchase_item env iidv s).2.1.items = s.items
    ∨ ∃ item0, s.items iidv.asString = some item0 ∧ item0.owner ≠ env.predecessor
        ∧ item0.status = ItemStatus.FORSALE
        ∧ (purchase_item env iidv s).2.1.items
            = mapSet s.items iidv.asString
                ({ item0 with
                    owner := env.predecessor, price := "", status := ItemStatus.SOLD }) := by
  unfold purchase_item
  split
  · exact Or.inl rfl
  split
  · exact Or.inl rfl
  split
  · exact Or.inl rfl
  next item hit =>
    split
    · exact Or.inl rfl
    next hst =>
      split
      · exact Or.inl rfl
      next hown =>
        split
        · exact Or.inl rfl
        dsimp only
        split
        · exact Or.inl rfl
        split
        · exact Or.inl rfl
        have hmut : (purchaseMutate s env.predecessor item.owner iidv.asString item).items
            = mapSet s.items iidv.asString
                ({ item with
                    owner := env.predecessor, price := "", status := ItemStatus.SOLD }) := by
          show (mapSet (accountsRemove (accountsAdd s env.predecessor iidv.asString)
              item.owner iidv.asString).items iidv.asString _) = _
          rw [items_accountsRemove, items_accountsAdd]
        split
        · exact Or.inr ⟨item, hit, hown, not_not.mp hst, hmut⟩
        · exact Or.inr ⟨item, hit, hown, not_not.mp hst, hmut⟩

/-! ### Reachability of the sample states -/

theorem reachable_sCreated : Reachable sCreated :=
  Reachable.step envAlice (.create (.vStr "hat") (.vStr "a blue hat") (.vStr "img"))
    (Reachable.start "market")

theorem reachable_sListed : Reachable sListed :=
  Reachable.step envAlice (.listIt (.vStr "0") (.vNum ⟨1, 1⟩)) reachable_sCreated

theorem reachable_sDeleted : Reachable sDeleted :=
  Reachable.step envAlice (.deleteIt (.vStr "0")) reachable_sCreated

/-! ### Claim theorems -/

/-- C5: after every operation (that is, in every reachable state), a stored
item's `price` string is non-empty if and only if its `status` is `FORSALE`;
in every other status the price is the empty string. -/
theorem price_nonempty_iff_forsale (s : Contract) (h : Reachable s) (iid : String) (it : Item)
    (hit : s.items iid = some it) : it.price ≠ "" ↔ it.status = ItemStatus.FORSALE :=
  (inv_of_reachable h).price_inv iid it hit

/-- Witness for C5: the listed item `"0"` of the concrete reachable state
`sListed` has price `"0.1"` and status `FORSALE`. -/
theorem price_nonempty_iff_forsale_witness :
    ({ id := "0", name := "hat", description := "a blue hat", price := "0.1", image := "img"
       owner := "alice", created_at := "7", updated_at := "7"
       status := ItemStatus.FORSALE } : Item).price ≠ ""
      ↔ ({ id := "0", name := "hat", description := "a blue hat", price := "0.1", image := "img"
           owner := "alice", created_at := "7", updated_at := "7"
           status := ItemStatus.FORSALE } : Item).status = ItemStatus.FORSALE :=
  price_nonempty_iff_forsale sListed reachable_sListed "0" _ (by decide)

/-- C6: after every operation, an id is in `accounts_items[a]` exactly when the
stored item with that id has `owner = a` (deletion does not touch the index),
and an id is in at most one account's list at a time. -/
theorem ownership_index_consistency (s : Contract) (h : Reachable s) :
    (∀ a iid, iid ∈ ownedList s a ↔ ∃ it, s.items iid = some it ∧ it.owner = a)
    ∧ (∀ a b iid, iid ∈ ownedList s a → iid ∈ ownedList s b → a = b) := by
  have hi := inv_of_reachable h
  refine ⟨hi.own, ?_⟩
  intro a b iid ha hb
  obtain ⟨it, hit, hoa⟩ := (hi.own a iid).mp ha
  obtain ⟨it', hit', hob⟩ := (hi.own b iid).mp hb
  rw [hit] at hit'
  cases hit'
  rw [← hoa, ← hob]

/-- Witness for C6: in the concrete reachable state `sListed`, id `"0"` is in
`alice`'s list exactly because the stored item's owner is `alice`. -/
theorem ownership_index_consistency_witness :
    "0" ∈ ownedList sListed "alice"
      ↔ ∃ it, sListed.items "0" = some it ∧ it.owner = "alice" :=
  (ownership_index_consistency sListed reachable_sListed).1 "alice" "0"

/-- C2: whenever some guard of the §4.3 table fails, the operation mutates
nothing (the returned state is the input state and no transfer is scheduled)
and returns `{success: false, msg}` where `msg` is the message of the first
failing guard in the table's source order (the guard list is evaluated
front-to-back and the first failure decides, so later guards never
contribute the message). -/
theorem guard_first_fail_no_mutation (env : Env) (op : Op) (s : Contract) (m : String)
    (hm : firstFailMsg (opGuards env op s) = some m) :
    applyOp env op s = (assertFail m, s, none) := by
  cases op with
  | create nm de im =>
    simp only [opGuards] at hm
    simp only [applyOp, create_item_guard_fail env nm de im s hm]
  | deleteIt iidv =>
    simp only [opGuards] at hm
    simp only [applyOp, delete_item_guard_fail env iidv s hm]
  | listIt iidv pricev =>
    simp only [opGuards] at hm
    simp only [applyOp, list_item_guard_fail env iidv pricev s hm]
  | delistIt iidv =>
    simp only [opGuards] at hm
    simp only [applyOp, delist_item_guard_fail env iidv s hm]
  | purchase iidv =>
    simp only [opGuards] at hm
    exact purchase_item_guard_fail env iidv s hm

/-- Witness for C2: a `create_item` call missing its description fails with
that guard's message and leaves the fresh state unchanged. -/
theorem guard_first_fail_no_mutation_witness :
    applyOp envAlice (.create (.vStr "x") .vNull (.vStr "y")) (initContract "market")
      = (assertFail "Description is required", initContract "market", none) :=
  guard_first_fail_no_mutation envAlice (.create (.vStr "x") .vNull (.vStr "y"))
    (initContract "market") "Description is required" (by decide)

/-- C7: in every reachable state, `get_items` returns exactly the stored items
whose status is not `DELETED`, in the id list's append order, which is
ascending numeric id order; every id in the global id list has a stored item;
and `get_items` is a pure projection of the item store and id list only — it
never reads the ownership index or roster. -/
theorem get_items_spec (s : Contract) (h : Reachable s) :
    (get_items s = (List.range s.item_ids.length).filterMap (fun k =>
        match s.items (natRepr k) with
        | some it => if it.status = ItemStatus.DELETED then none else some it
        | none => none))
    ∧ (∀ it ∈ get_items s, it.status ≠ ItemStatus.DELETED)
    ∧ (∀ it : Item, it ∈ get_items s ↔
        ∃ iid, iid ∈ s.item_ids ∧ s.items iid = some it ∧ it.status ≠ ItemStatus.DELETED)
    ∧ ((get_items s).Pairwise (fun a b => decodeNat a.id < decodeNat b.id))
    ∧ (∀ iid ∈ s.item_ids, ∃ it, s.items iid = some it)
    ∧ (∀ t : Contract, t.items = s.items → t.item_ids = s.item_ids →
        get_items t = get_items s) := by
  have hi := inv_of_reachable h
  refine ⟨get_items_eq_range hi, ?_, fun it => mem_get_items, ?_, ?_, ?_⟩
  · intro it hmem
    obtain ⟨iid, _, _, hd⟩ := mem_get_items.mp hmem
    exact hd
  · rw [get_items_eq_range hi]
    refine List.Pairwise.filterMap _ ?_ (List.pairwise_lt_range _)
    intro a b hab x hx y hy
    rw [Option.mem_def] at hx hy
    have hxid : x.id = natRepr a := by
      rcases hxa : s.items (natRepr a) with _ | it
      · simp [hxa] at hx
      · simp only [hxa] at hx
        split at hx
        · cases hx
        · cases hx
          exact hi.idf _ _ hxa
    have hyid : y.id = natRepr b := by
      rcases hyb : s.items (natRepr b) with _ | it
      · simp [hyb] at hy
      · simp only [hyb] at hy
        split at hy
        · cases hy
        · cases hy
          exact hi.idf _ _ hyb
    rw [hxid, hyid, decodeNat_natRepr, decodeNat_natRepr]
    exact hab
  · intro iid hmem
    have hs := (hi.dom iid).mpr hmem
    rcases hx : s.items iid with _ | it
    · rw [hx] at hs
      cases hs
    · exact ⟨it, rfl⟩
  · intro t hti htl
    unfold get_items
    rw [hti, htl]

/-- Witness for C7 at the concrete reachable state `sListed`. -/
theorem get_items_spec_witness :
    (get_items sListed = (List.range sListed.item_ids.length).filterMap (fun k =>
        match sListed.items (natRepr k) with
        | some it => if it.status = ItemStatus.DELETED then none else some it
        | none => none))
    ∧ (∀ it ∈ get_items sListed, it.status ≠ ItemStatus.DELETED)
    ∧ (∀ it : Item, it ∈ get_items sListed ↔
        ∃ iid, iid ∈ sListed.item_ids ∧ sListed.items iid = some it
          ∧ it.status ≠ ItemStatus.DELETED)
    ∧ ((get_items sListed).Pairwise (fun a b => decodeNat a.id < decodeNat b.id))
    ∧ (∀ iid ∈ sListed.item_ids, ∃ it, sListed.items iid = some it)
    ∧ (∀ t : Contract, t.items = sListed.items → t.item_ids = sListed.item_ids →
        get_items t = get_items sListed) :=
  get_items_spec sListed reachable_sListed

/-- C8: a purchase of a `FORSALE` item succeeds only if the attached payment is
at least the integer obtained by parsing the stored decimal price string
exactly and multiplying by `10^24` — the integer `n` is exactly the parsed
rational value times `10^24`, with no floating-point rounding — and a payment
strictly below `n` fails with the insufficient-deposit message, mutating
nothing. -/
theorem purchase_min_deposit (env : Env) (s : Contract) (iid : String) (item : Item) (d : Dec)
    (n : Int) (hiid : iid ≠ "") (hit : s.items iid = some item)
    (hst : item.status = ItemStatus.FORSALE) (hown : item.owner ≠ env.predecessor)
    (hp : parseDec item.price = some d) (hn : bigIntOfDec (mulPow24 d) = some n) :
    ((n : ℚ) = decVal d * 10 ^ 24)
    ∧ ((purchase_item env (.vStr iid) s).1.success = true → n ≤ (env.attachedDeposit : Int))
    ∧ ((env.attachedDeposit : Int) < n →
        purchase_item env (.vStr iid) s = (assertFail (purchaseDepositMsg env n), s, none)) := by
  have hthird : ∀ _ : (env.attachedDeposit : Int) < n,
      purchase_item env (.vStr iid) s = (assertFail (purchaseDepositMsg env n), s, none) := by
    intro hlt
    have hnle : ¬ (n ≤ (env.attachedDeposit : Int)) := not_le.mpr hlt
    simp [purchase_item, JsVal.truthy, JsVal.isString, JsVal.asString, hiid, hit, hst, hown,
      hp, hn, hnle, hlt]
  refine ⟨bigIntOfDec_mulPow24_val hn, ?_, hthird⟩
  intro hsucc
  by_contra hnle
  rw [hthird (not_le.mp hnle)] at hsucc
  simp [assertFail] at hsucc

/-- Witness for C8 at the concrete state `sListed` (price `"0.1"`, minimum
`10^23` yoctoNEAR) under `bob`'s purchase environment. -/
theorem purchase_min_deposit_witness :
    (((10 ^ 23 : Int) : ℚ) = decVal ⟨1, 1⟩ * 10 ^ 24)
    ∧ ((purchase_item envBob (.vStr "0") sListed).1.success = true
        → (10 ^ 23 : Int) ≤ (envBob.attachedDeposit : Int))
    ∧ ((envBob.attachedDeposit : Int) < (10 ^ 23 : Int) →
        purchase_item envBob (.vStr "0") sListed
          = (assertFail (purchaseDepositMsg envBob (10 ^ 23)), sListed, none)) :=
  purchase_min_deposit envBob sListed "0"
    { id := "0", name := "hat", description := "a blue hat", price := "0.1", image := "img"
      owner := "alice", created_at := "7", updated_at := "7", status := ItemStatus.FORSALE }
    ⟨1, 1⟩ (10 ^ 23) (by decide) (by decide) (by decide) (by decide) (by decide) (by decide)

/-- C9: every successful `delete_item`, `list_item`, `delist_item` or
`purchase_item` leaves every stored item's `id`, `name`, `description`,
`image`, `created_at` and `updated_at` fields unchanged — both timestamps are
written only at creation and never refreshed afterwards. -/
theorem ops_preserve_immutable_fields (env : Env) (op : Op) (s : Contract)
    (hop : op.isCreate = false) (hsucc : (applyOp env op s).1.success = true)
    (iid : String) (it it' : Item) (hit : s.items iid = some it)
    (hit' : (applyOp env op s).2.1.items iid = some it') :
    it'.id = it.id ∧ it'.name = it.name ∧ it'.description = it.description
      ∧ it'.image = it.image ∧ it'.created_at = it.created_at
      ∧ it'.updated_at = it.updated_at := by
  cases op with
  | create nm de im => exact absurd hop (by simp [Op.isCreate])
  | deleteIt iidv =>
    have h2 : (delete_item env iidv s).2.items iid = some it' := hit'
    rcases delete_item_items env iidv s with hsame | ⟨item0, hit0, _, _, heq⟩
    · rw [hsame, hit] at h2
      cases h2
      exact ⟨rfl, rfl, rfl, rfl, rfl, rfl⟩
    · rw [heq] at h2
      by_cases hq : iid = iidv.asString
      · subst hq
        rw [hit] at hit0
        cases hit0
        simp only [mapSet_same] at h2
        cases h2
        exact ⟨rfl, rfl, rfl, rfl, rfl, rfl⟩
      · simp only [mapSet_other _ _ hq, hit] at h2
        cases h2
        exact ⟨rfl, rfl, rfl, rfl, rfl, rfl⟩
  | listIt iidv pricev =>
    have h2 : (list_item env iidv pricev s).2.items iid = some it' := hit'
    rcases list_item_items env iidv pricev s with hsame | ⟨item0, hit0, _, _, heq⟩
    · rw [hsame, hit] at h2
      cases h2
      exact ⟨rfl, rfl, rfl, rfl, rfl, rfl⟩
    · rw [heq] at h2
      by_cases hq : iid = iidv.asString
      · subst hq
        rw [hit] at hit0
        cases hit0
        simp only [mapSet_same] at h2
        cases h2
        exact ⟨rfl, rfl, rfl, rfl, rfl, rfl⟩
      · simp only [mapSet_other _ _ hq, hit] at h2
        cases h2
        exact ⟨rfl, rfl, rfl, rfl, rfl, rfl⟩
  | delistIt iidv =>
    have h2 : (delist_item env iidv s).2.items iid = some it' := hit'
    rcases delist_item_items env iidv s with hsame | ⟨item0, hit0, _, _, heq⟩
    · rw [hsame, hit] at h2
      cases h2
      exact ⟨rfl, rfl, rfl, rfl, rfl, rfl⟩
    · rw [heq] at h2
      by_cases hq : iid = iidv.asString
      · subst hq
        rw [hit] at hit0
        cases hit0
        simp only [mapSet_same] at h2
        cases h2
        exact ⟨rfl, rfl, rfl, rfl, rfl, rfl⟩
      · simp only [mapSet_other _ _ hq, hit] at h2
        cases h2
        exact ⟨rfl, rfl, rfl, rfl, rfl, rfl⟩
  | purchase iidv =>
    have h2 : (purchase_item env iidv s).2.1.items iid = some it' := hit'
    rcases purchase_item_items env iidv s with hsame | ⟨item0, hit0, _, _, heq⟩
    · rw [hsame, hit] at h2
      cases h2
      exact ⟨rfl, rfl, rfl, rfl, rfl, rfl⟩
    · rw [heq] at h2
      by_cases hq : iid = iidv.asString
      · subst hq
        rw [hit] at hit0
        cases hit0
        simp only [mapSet_same] at h2
        cases h2
        exact ⟨rfl, rfl, rfl, rfl, rfl, rfl⟩
      · simp only [mapSet_other _ _ hq, hit] at h2
        cases h2
        exact ⟨rfl, rfl, rfl, rfl, rfl, rfl⟩

/-- Witness for C9: `alice` listing her created item `"0"` preserves all six
immutable fields. -/
theorem ops_preserve_immutable_fields_witness :
    ("0" : String) = "0" ∧ ("hat" : String) = "hat"
      ∧ ("a blue hat" : String) = "a blue hat" ∧ ("img" : String) = "img"
      ∧ ("7" : String) = "7" ∧ ("7" : String) = "7" :=
  ops_preserve_immutable_fields envAlice (.listIt (.vStr "0") (.vNum ⟨1, 1⟩)) sCreated
    (by decide) (by decide) "0"
    { id := "0", name := "hat", description := "a blue hat", price := "", image := "img"
      owner := "alice", created_at := "7", updated_at := "7", status := ItemStatus.CREATED }
    { id := "0", name := "hat", description := "a blue hat", price := "0.1", image := "img"
      owner := "alice", created_at := "7", updated_at := "7", status := ItemStatus.FORSALE }
    (by decide) (by decide)

/-- C10: a `SOLD` item can be re-listed: a `list_item` call by its current
owner with a positive numeric price succeeds and stores the price's decimal
string with status `FORSALE`. -/
theorem sold_item_relist (env : Env) (s : Contract) (iid : String) (item : Item) (d : Dec)
    (hiid : iid ≠ "") (hit : s.items iid = some item) (hst : item.status = ItemStatus.SOLD)
    (hown : item.owner = env.predecessor) (hpos : 0 < d.m) :
    list_item env (.vStr iid) (.vNum d) s =
      ({ success := true, msg := "Item listed successfully" },
        { s with items := (mapSet s.items iid
            ({ item with price := d.render, status := ItemStatus.FORSALE })) }) := by
  have h0 : d.m ≠ 0 := by omega
  have hle : ¬ d.m ≤ 0 := by omega
  simp [list_item, JsVal.truthy, JsVal.isString, JsVal.isNumber, JsVal.asString, JsVal.asNum,
    hiid, hit, hst, hown, hpos, h0, hle]

/-- Witness for C10: after `bob` buys item `"0"` it is `SOLD`; `bob` re-lists
it at price `2.5` and it becomes `FORSALE` with the rendered price string. -/
theorem sold_item_relist_witness :
    list_item envBob (.vStr "0") (.vNum ⟨25, 1⟩) sSold =
      ({ success := true, msg := "Item listed successfully" },
        { sSold with items := (mapSet sSold.items "0"
            ({ id := "0", name := "hat", description := "a blue hat"
               price := Dec.render ⟨25, 1⟩, image := "img", owner := "bob"
               created_at := "7", updated_at := "7", status := ItemStatus.FORSALE })) }) := by
  have h := sold_item_relist envBob sSold "0"
    { id := "0", name := "hat", description := "a blue hat", price := "", image := "img"
      owner := "bob", created_at := "7", updated_at := "7", status := ItemStatus.SOLD }
    ⟨25, 1⟩ (by decide) (by decide) (by decide) (by decide) (by decide)
  simpa using h

/-- Counterexample to C1 as stated: on the concrete reachable state `sListed`,
`bob` purchases item `"0"` while the contract balance is below the settlement
amount.  The settlement precondition `amount < balance` fails, yet the call
returns the normal `{success: false, msg}` shape and the ownership/item
mutations performed earlier in the operation are retained (the item is now
`SOLD` and owned by `bob`), because `purchase_item`'s own `try/catch` catches
the `internalSendNEAR` assertion.  Only the transfer itself is not attempted. -/
theorem settlement_failure_cex :
    ((purchase_item envBobLow (.vStr "0") sListed).1
        = { success := false
            msg := "assertion failed: Not enough balance 10000000000000000000000 to cover transfer of 100000000000000000000000 yoctoNEAR" })
    ∧ ((purchase_item envBobLow (.vStr "0") sListed).2.2 = none)
    ∧ (((purchase_item envBobLow (.vStr "0") sListed).2.1.items "0").map Item.status
        = some ItemStatus.SOLD)
    ∧ (((purchase_item envBobLow (.vStr "0") sListed).2.1.items "0").map Item.owner
        = some "bob")
    ∧ ((purchase_item envBobLow (.vStr "0") sListed).2.1.items "0" ≠ sListed.items "0") := by
  decide

/-- C1 (amended): when a settlement-transfer precondition fails during
`purchase_item`, the transfer is not attempted, but the operation does not
abort: it returns a normal `{success: false, msg}` result carrying the failed
settlement assertion's message, and every ownership/index/item mutation
performed earlier in the operation is retained. -/
theorem settlement_failure_is_normal_result (env : Env) (s : Contract) (iid : String)
    (item : Item) (d : Dec) (n : Int) (m : String)
    (hiid : iid ≠ "") (hit : s.items iid = some item) (hst : item.status = ItemStatus.FORSALE)
    (hown : item.owner ≠ env.predecessor) (hp : parseDec item.price = some d)
    (hn : bigIntOfDec (mulPow24 d) = some n) (hdep : n ≤ (env.attachedDeposit : Int))
    (herr : internalSendNEAR env item.owner n = Except.error m) :
    purchase_item env (.vStr iid) s =
      ({ success := false, msg := m },
        purchaseMutate s env.predecessor item.owner iid item, none) := by
  have hnlt : ¬ ((env.attachedDeposit : Int) < n) := not_lt.mpr hdep
  simp [purchase_item, JsVal.truthy, JsVal.isString, JsVal.asString, hiid, hit, hst, hown,
    hp, hn, hdep, hnlt, herr]

/-- Witness for C1 (amended) at the concrete instance of the counterexample. -/
theorem settlement_failure_is_normal_result_witness :
    purchase_item envBobLow (.vStr "0") sListed =
      ({ success := false
         msg := "assertion failed: Not enough balance 10000000000000000000000 to cover transfer of 100000000000000000000000 yoctoNEAR" },
        purchaseMutate sListed "bob" "alice" "0"
          { id := "0", name := "hat", description := "a blue hat", price := "0.1"
            image := "img", owner := "alice", created_at := "7", updated_at := "7"
            status := ItemStatus.FORSALE }, none) :=
  settlement_failure_is_normal_result envBobLow sListed "0"
    { id := "0", name := "hat", description := "a blue hat", price := "0.1", image := "img"
      owner := "alice", created_at := "7", updated_at := "7", status := ItemStatus.FORSALE }
    ⟨1, 1⟩ (10 ^ 23)
    "assertion failed: Not enough balance 10000000000000000000000 to cover transfer of 100000000000000000000000 yoctoNEAR"
    (by decide) (by decide) (by decide) (by decide) (by decide) (by decide) (by decide)
    (by rfl)

/-- Counterexample to C3 as stated: in `bob`'s successful purchase of item
`"0"` from `alice`, the ownership index after the operation's first index
mutation (`accountsAdd` to the buyer — the code's lines 147–154, executed
before the seller removal of lines 155–162, as fixed by `purchaseMutate`)
contains the id in both the buyer's and the seller's lists.  Under the claimed
remove-before-add order the id would never be present in both. -/
theorem ownership_order_cex :
    ("0" ∈ ownedList (accountsAdd sListed "bob" "0") "bob")
    ∧ ("0" ∈ ownedList (accountsAdd sListed "bob" "0") "alice")
    ∧ ("0" ∈ ownedList sListed "alice")
    ∧ ((purchase_item envBob (.vStr "0") sListed).1.success = true) := by
  decide

/-- C3 (amended): during `purchase_item` the engine invokes `add(buyer, id)`
on the ownership index before `remove(seller, id)` (the mutation block is
`accountsRemove` applied after `accountsAdd`), so between the two calls the id
is present in both accounts' lists — never absent from both — and after the
pair runs the id is only in the buyer's list. -/
theorem purchase_adds_before_removing (s : Contract) (buyer seller iid : String) (item : Item)
    (hmem : iid ∈ ownedList s seller) (hnd : (ownedList s seller).Nodup)
    (hne : seller ≠ buyer) :
    ((purchaseMutate s buyer seller iid item).accounts_items
        = (accountsRemove (accountsAdd s buyer iid) seller iid).accounts_items)
    ∧ (iid ∈ ownedList (accountsAdd s buyer iid) buyer)
    ∧ (iid ∈ ownedList (accountsAdd s buyer iid) seller)
    ∧ (iid ∈ ownedList (purchaseMutate s buyer seller iid item) buyer)
    ∧ (iid ∉ ownedList (purchaseMutate s buyer seller iid item) seller) := by
  have hob : ∀ b, ownedList (purchaseMutate s buyer seller iid item) b
      = ownedList (accountsRemove (accountsAdd s buyer iid) seller iid) b := fun _ => rfl
  refine ⟨rfl, ?_, ?_, ?_, ?_⟩
  · rw [ownedList_accountsAdd, if_pos rfl]
    simp
  · rw [ownedList_accountsAdd, if_neg hne]
    exact hmem
  · rw [hob, ownedList_accountsRemove, if_neg (fun h => hne h.symm), ownedList_accountsAdd,
      if_pos rfl]
    simp
  · rw [hob, ownedList_accountsRemove, if_pos rfl, ownedList_accountsAdd, if_neg hne]
    exact hnd.not_mem_erase

/-- Witness for C3 (amended) at the concrete purchase of item `"0"`. -/
theorem purchase_adds_before_removing_witness :
    ((purchaseMutate sListed "bob" "alice" "0"
        { id := "0", name := "hat", description := "a blue hat", price := "0.1", image := "img"
          owner := "alice", created_at := "7", updated_at := "7"
          status := ItemStatus.FORSALE }).accounts_items
      = (accountsRemove (accountsAdd sListed "bob" "0") "alice" "0").accounts_items)
    ∧ ("0" ∈ ownedList (accountsAdd sListed "bob" "0") "bob")
    ∧ ("0" ∈ ownedList (accountsAdd sListed "bob" "0") "alice")
    ∧ ("0" ∈ ownedList (purchaseMutate sListed "bob" "alice" "0"
        { id := "0", name := "hat", description := "a blue hat", price := "0.1", image := "img"
          owner := "alice", created_at := "7", updated_at := "7"
          status := ItemStatus.FORSALE }) "bob")
    ∧ ("0" ∉ ownedList (purchaseMutate sListed "bob" "alice" "0"
        { id := "0", name := "hat", description := "a blue hat", price := "0.1", image := "img"
          owner := "alice", created_at := "7", updated_at := "7"
          status := ItemStatus.FORSALE }) "alice") :=
  purchase_adds_before_removing sListed "bob" "alice" "0"
    { id := "0", name := "hat", description := "a blue hat", price := "0.1", image := "img"
      owner := "alice", created_at := "7", updated_at := "7", status := ItemStatus.FORSALE }
    (by decide) (by decide) (by decide)

/-- Counterexample to C4 as stated: `alice` creates item `"0"`, deletes it
(status `DELETED`), then successfully re-lists it — the final status is
`FORSALE`, so `DELETED` is not absorbing. -/
theorem deleted_relist_cex :
    ((sDeleted.items "0").map Item.status = some ItemStatus.DELETED)
    ∧ ((list_item envAlice (.vStr "0") (.vNum ⟨1, 0⟩) sDeleted).1.success = true)
    ∧ (((list_item envAlice (.vStr "0") (.vNum ⟨1, 0⟩) sDeleted).2.items "0").map Item.status
        = some ItemStatus.FORSALE) := by
  decide

/-- C4 (amended): a `DELETED` status is preserved by `delete_item`,
`delist_item` and `purchase_item`, and any operation that leaves an item
`DELETED` started from a non-`FORSALE` status (delete is guarded by
`status ≠ FORSALE`); however `DELETED` is not absorbing: `list_item` by the
owner with a valid positive numeric price succeeds on a `DELETED` item and
sets its status to `FORSALE`. -/
theorem deleted_status_amended :
    (∀ (env : Env) (s : Contract) (iidv : JsVal) (iid : String) (it : Item),
       s.items iid = some it → it.status = ItemStatus.DELETED →
       (((delete_item env iidv s).2.items iid).map Item.status = some ItemStatus.DELETED
        ∧ ((delist_item env iidv s).2.items iid).map Item.status = some ItemStatus.DELETED
        ∧ ((purchase_item env iidv s).2.1.items iid).map Item.status
            = some ItemStatus.DELETED))
    ∧ (∀ (env : Env) (op : Op) (s : Contract) (iid : String) (it' : Item),
        (applyOp env op s).2.1.items iid = some it' → it'.status = ItemStatus.DELETED →
        ∃ it, s.items iid = some it ∧ it.status ≠ ItemStatus.FORSALE)
    ∧ (∀ (env : Env) (s : Contract) (iid : String) (it : Item) (d : Dec),
        iid ≠ "" → s.items iid = some it → it.status = ItemStatus.DELETED →
        it.owner = env.predecessor → 0 < d.m →
        ((list_item env (.vStr iid) (.vNum d) s).1.success = true
          ∧ ((list_item env (.vStr iid) (.vNum d) s).2.items iid).map Item.status
              = some ItemStatus.FORSALE)) := by
  refine ⟨?_, ?_, ?_⟩
  · intro env s iidv iid it hit hdel
    refine ⟨?_, ?_, ?_⟩
    · rcases delete_item_items env iidv s with hsame | ⟨item0, hit0, _, _, heq⟩
      · rw [hsame, hit]
        simp [hdel]
      · rw [heq]
        by_cases hq : iid = iidv.asString
        · subst hq
          rw [hit] at hit0
          cases hit0
          simp only [mapSet_same]
          simp
        · simp only [mapSet_other _ _ hq, hit]
          simp [hdel]
    · rcases delist_item_items env iidv s with hsame | ⟨item0, hit0, _, hst0, heq⟩
      · rw [hsame, hit]
        simp [hdel]
      · rw [heq]
        by_cases hq : iid = iidv.asString
        · subst hq
          rw [hit] at hit0
          cases hit0
          rw [hdel] at hst0
          cases hst0
        · simp only [mapSet_other _ _ hq, hit]
          simp [hdel]
    · rcases purchase_item_items env iidv s with hsame | ⟨item0, hit0, _, hst0, heq⟩
      · rw [hsame, hit]
        simp [hdel]
      · rw [heq]
        by_cases hq : iid = iidv.asString
        · subst hq
          rw [hit] at hit0
          cases hit0
          rw [hdel] at hst0
          cases hst0
        · simp only [mapSet_other _ _ hq, hit]
          simp [hdel]
  · intro env op s iid it' hit' hdel
    cases op with
    | create nm de im =>
      have h2 : (create_item env nm de im s).2.items iid = some it' := hit'
      rcases create_item_items env nm de im s with hsame | heq
      · rw [hsame] at h2
        exact ⟨it', h2, by simp [hdel]⟩
      · rw [heq] at h2
        by_cases hq : iid = natRepr s.item_ids.length
        · subst hq
          simp only [mapSet_same] at h2
          cases h2
          simp [newItem] at hdel
        · simp only [mapSet_other _ _ hq] at h2
          exact ⟨it', h2, by simp [hdel]⟩
    | deleteIt iidv =>
      have h2 : (delete_item env iidv s).2.items iid = some it' := hit'
      rcases delete_item_items env iidv s with hsame | ⟨item0, hit0, _, hst0, heq⟩
      · rw [hsame] at h2
        exact ⟨it', h2, by simp [hdel]⟩
      · rw [heq] at h2
        by_cases hq : iid = iidv.asString
        · subst hq
          exact ⟨item0, hit0, hst0⟩
        · simp only [mapSet_other _ _ hq] at h2
          exact ⟨it', h2, by simp [hdel]⟩
    | listIt iidv pricev =>
      have h2 : (list_item env iidv pricev s).2.items iid = some it' := hit'
      rcases list_item_items env iidv pricev s with hsame | ⟨item0, hit0, _, _, heq⟩
      · rw [hsame] at h2
        exact ⟨it', h2, by simp [hdel]⟩
      · rw [heq] at h2
        by_cases hq : iid = iidv.asString
        · subst hq
          simp only [mapSet_same] at h2
          cases h2
          simp at hdel
        · simp only [mapSet_other _ _ hq] at h2
          exact ⟨it', h2, by simp [hdel]⟩
    | delistIt iidv =>
      have h2 : (delist_item env iidv s).2.items iid = some it' := hit'
      rcases delist_item_items env iidv s with hsame | ⟨item0, hit0, _, _, heq⟩
      · rw [hsame] at h2
        exact ⟨it', h2, by simp [hdel]⟩
      · rw [heq] at h2
        by_cases hq : iid = iidv.asString
        · subst hq
          simp only [mapSet_same] at h2
          cases h2
          simp at hdel
        · simp only [mapSet_other _ _ hq] at h2
          exact ⟨it', h2, by simp [hdel]⟩
    | purchase iidv =>
      have h2 : (purchase_item env iidv s).2.1.items iid = some it' := hit'
      rcases purchase_item_items env iidv s with hsame | ⟨item0, hit0, _, _, heq⟩
      · rw [hsame] at h2
        exact ⟨it', h2, by simp [hdel]⟩
      · rw [heq] at h2
        by_cases hq : iid = iidv.asString
        · subst hq
          simp only [mapSet_same] at h2
          cases h2
          simp at hdel
        · simp only [mapSet_other _ _ hq] at h2
          exact ⟨it', h2, by simp [hdel]⟩
  · intro env s iid it d hiid hit hdel hown hpos
    have h0 : d.m ≠ 0 := by omega
    have hle : ¬ d.m ≤ 0 := by omega
    have hstf : it.status ≠ ItemStatus.FORSALE := by
      rw [hdel]
      simp
    constructor
    · simp [list_item, JsVal.truthy, JsVal.isString, JsVal.isNumber, JsVal.asString,
        JsVal.asNum, hiid, hit, hstf, hown, hpos, h0, hle]
    · simp [list_item, JsVal.truthy, JsVal.isString, JsVal.isNumber, JsVal.asString,
        JsVal.asNum, hiid, hit, hstf, hown, hpos, h0, hle, mapSet_same]

/-- Witness for C4 (amended) at the concrete deleted item `"0"` of `sDeleted`. -/
theorem deleted_status_amended_witness :
    (((delete_item envAlice (.vStr "0") sDeleted).2.items "0").map Item.status
        = some ItemStatus.DELETED)
    ∧ (((delist_item envAlice (.vStr "0") sDeleted).2.items "0").map Item.status
        = some ItemStatus.DELETED)
    ∧ (((purchase_item envAlice (.vStr "0") sDeleted).2.1.items "0").map Item.status
        = some ItemStatus.DELETED)
    ∧ ((list_item envAlice (.vStr "0") (.vNum ⟨1, 0⟩) sDeleted).1.success = true)
    ∧ (((list_item envAlice (.vStr "0") (.vNum ⟨1, 0⟩) sDeleted).2.items "0").map Item.status
        = some ItemStatus.FORSALE) := by
  have ha := (deleted_status_amended.1 envAlice sDeleted (.vStr "0") "0"
    { id := "0", name := "hat", description := "a blue hat", price := "", image := "img"
      owner := "alice", created_at := "7", updated_at := "7", status := ItemStatus.DELETED }
    (by decide) (by decide))
  have hc := (deleted_status_amended.2.2 envAlice sDeleted "0"
    { id := "0", name := "hat", description := "a blue hat", price := "", image := "img"
      owner := "alice", created_at := "7", updated_at := "7", status := ItemStatus.DELETED }
    ⟨1, 0⟩ (by decide) (by decide) (by decide) (by decide) (by decide))
  exact ⟨ha.1, ha.2.1, ha.2.2, hc.1, hc.2⟩

end BOS
